import Mathlib

/-!
Verification of the Capitol Wire push-notification backend.

The repository has two variants of the Express backend:
* `src/server.js` (namespace `Server` below): its `broadcastNotification`
  evicts a subscription only on status codes 404 and 410 and reports
  `{ ok, sent, active, removed }` (no `failures` field).
* `src/unnamed/part_000` (namespace `Patched` below): its `POST /broadcast`
  handler evicts on status codes 400, 401, 403, 404 and 410 and appends a
  descriptor (`code || err?.message`) to `failures` for every failed delivery.

Both keep subscriptions in a JavaScript `Map` from the endpoint string to the
subscription object.  The `Map` is modelled as an association list with JS
`Map` semantics: `set` on a present key updates the entry in place (keeping
its insertion position), otherwise appends; `delete` removes all entries with
the key (at most one for a real `Map`); iteration is in insertion order.

The outcome of one `webpush.sendNotification` call is abstracted as a
function from the endpoint identity to an `Outcome` (the payload is constant
across one broadcast, so it does not influence the control flow being
verified).
-/

namespace CapitolWire

/-- Result of one push delivery attempt: either it succeeded, or the push
service rejected it with an HTTP status code (`err.statusCode` plus the
message of the error), or the transport failed with no status code at all. -/
inductive Outcome where
  | delivered
  | rejected (statusCode : Nat) (message : String)
  | transportError (message : String)
deriving DecidableEq, Repr

/-- A failure descriptor as pushed by `failures.push(code || err?.message)`:
a numeric status code when it is truthy, otherwise the error message. -/
inductive Failure where
  | code (c : Nat)
  | msg (m : String)
deriving DecidableEq, Repr

/-- The subscription store: the JS `Map` from endpoint string to the
subscription object (modelled as an opaque string blob). -/
abbrev Subs := List (String × String)

/-- JS `Map.prototype.has`. -/
def mapHas (m : Subs) (k : String) : Bool :=
  m.any (fun p => p.1 == k)

/-- JS `Map.prototype.set`: update in place when the key is present
(keeping insertion order), otherwise append at the end. -/
def mapSet (m : Subs) (k v : String) : Subs :=
  if mapHas m k then
    m.map (fun p => if p.1 == k then (k, v) else p)
  else
    m ++ [(k, v)]

/-- JS `Map.prototype.delete` (dropping the Boolean result). -/
def mapDelete (m : Subs) (k : String) : Subs :=
  m.filter (fun p => p.1 != k)

/-- JS `Map.prototype.size`. -/
def mapSize (m : Subs) : Nat := m.length

/-- The identities currently registered, in insertion order. -/
def keys (m : Subs) : List String := m.map Prod.fst

/-- An incoming HTTP request, reduced to the parts the handlers read:
the two auth headers (`none` = header absent) and, for POST bodies that
carry a subscription, the endpoint and the rest of the subscription. -/
structure Request where
  xHillPulseKey : Option String
  authorization : Option String
  body : Option (String × String)
deriving DecidableEq, Repr

/-- JS truthiness for a header value: `undefined` and the empty string are falsy. -/
def truthy (o : Option String) : Option String :=
  match o with
  | none => none
  | some s => if s.isEmpty then none else some s

/-- Function `assertAuthorized`, identical in both variants: return true
when the secret is unset; otherwise read the first truthy value among the
X-HillPulse-Key header and the Authorization header (defaulting to the
empty string) and compare it against the secret and its Bearer form. -/
def assertAuthorized (secret : String) (req : Request) : Bool :=
  if secret.isEmpty then true
  else
    let h := ((truthy req.xHillPulseKey).orElse (fun _ => truthy req.authorization)).getD ""
    h == secret || h == "Bearer " ++ secret

/-! ### The `src/server.js` variant -/

namespace Server

/-- Mutable state of the loop in `broadcastNotification`:
`let sent = 0, removed = 0;` together with the `subscriptions` map. -/
structure BState where
  subs : Subs
  sent : Nat
  removed : Nat
deriving Repr

/-- The `for (const [endpoint, sub] of subscriptions.entries())` loop of
`broadcastNotification` in `src/server.js`: on success `sent++`; on an
error with `statusCode === 404 || statusCode === 410` the endpoint is
deleted and `removed++`; any other error is only logged. -/
def loop (deliver : String → Outcome) : List (String × String) → BState → BState
  | [], st => st
  | (endpoint, _sub) :: rest, st =>
    loop deliver rest
      (match deliver endpoint with
       | .delivered => { st with sent := st.sent + 1 }
       | .rejected code _ =>
         if code == 404 || code == 410 then
           { st with subs := mapDelete st.subs endpoint, removed := st.removed + 1 }
         else st
       | .transportError _ => st)

/-- The `{ ok: true, sent, active: subscriptions.size, removed }` object
returned by `broadcastNotification`. -/
structure Report where
  ok : Bool
  sent : Nat
  active : Nat
  removed : Nat
deriving DecidableEq, Repr

/-- The body of `broadcastNotification` after the VAPID guard: run the
delivery loop over the current entries and build the report.  Also returns
the subscription map as it stands after the loop. -/
def broadcast (subs : Subs) (deliver : String → Outcome) : Report × Subs :=
  let st := loop deliver subs { subs := subs, sent := 0, removed := 0 }
  ({ ok := true, sent := st.sent, active := mapSize st.subs, removed := st.removed }, st.subs)

/-- Function `broadcastNotification(title, body, url)` from `src/server.js`:
when a VAPID key is missing it returns the skipped object (modelled as
`none`), otherwise the delivery loop and its report. -/
def broadcastNotification (vapidPublic vapidPrivate : String) (subs : Subs)
    (deliver : String → Outcome) : Option (Report × Subs) :=
  if vapidPublic.isEmpty || vapidPrivate.isEmpty then none
  else some (broadcast subs deliver)

/-- Response of the `POST /subscribe` handler in `src/server.js`. -/
inductive SubscribeResult where
  | unauthorized
  | badSubscription
  | ok (count : Nat)
deriving DecidableEq, Repr

/-- Route `POST /subscribe` from `src/server.js`: 401 when unauthorized, 400 when
`!sub?.endpoint` (body missing or endpoint falsy), otherwise
`subscriptions.set(sub.endpoint, sub)` and `{ ok: true, count: size }`. -/
def subscribeHandler (secret : String) (req : Request) (subs : Subs) :
    SubscribeResult × Subs :=
  if !assertAuthorized secret req then (.unauthorized, subs)
  else
    match req.body with
    | none => (.badSubscription, subs)
    | some (endpoint, sub) =>
      if endpoint.isEmpty then (.badSubscription, subs)
      else
        let m := mapSet subs endpoint sub
        (.ok (mapSize m), m)

end Server

/-! ### The `src/unnamed/part_000` variant -/

namespace Patched

/-- Mutable state of the `/broadcast` loop in `src/unnamed/part_000`:
`let sent = 0, removed = 0, failures = [];` plus the `subscriptions` map. -/
structure BState where
  subs : Subs
  sent : Nat
  removed : Nat
  failures : List Failure
deriving Repr

/-- The `for (const [endpoint, sub] of subscriptions.entries())` loop of the
`POST /broadcast` handler in `src/unnamed/part_000`: on success `sent++`;
on an error, `const code = err?.statusCode;` then
`if ([400,401,403,404,410].includes(code)) { delete; removed++; } else log;`
and in either case `failures.push(code || err?.message)`. -/
def loop (deliver : String → Outcome) : List (String × String) → BState → BState
  | [], st => st
  | (endpoint, _sub) :: rest, st =>
    loop deliver rest
      (match deliver endpoint with
       | .delivered => { st with sent := st.sent + 1 }
       | .rejected code msg =>
         let st1 :=
           if [400, 401, 403, 404, 410].contains code then
             { st with subs := mapDelete st.subs endpoint, removed := st.removed + 1 }
           else st
         { st1 with
             failures := st1.failures ++ [if code != 0 then .code code else .msg msg] }
       | .transportError msg =>
         { st with failures := st.failures ++ [.msg msg] })

/-- The `{ ok: true, sent, active: subscriptions.size, removed, failures }`
response of `POST /broadcast` in `src/unnamed/part_000`. -/
structure Report where
  ok : Bool
  sent : Nat
  active : Nat
  removed : Nat
  failures : List Failure
deriving DecidableEq, Repr

/-- The body of the `POST /broadcast` handler after the auth check: run the
delivery loop over the current entries and build the JSON response.  Also
returns the subscription map as it stands after the loop. -/
def broadcast (subs : Subs) (deliver : String → Outcome) : Report × Subs :=
  let st := loop deliver subs { subs := subs, sent := 0, removed := 0, failures := [] }
  ({ ok := true, sent := st.sent, active := mapSize st.subs, removed := st.removed,
     failures := st.failures }, st.subs)

/-- Response of the `POST /purge-subs` handler in `src/unnamed/part_000`. -/
inductive PurgeResult where
  | unauthorized
  | ok (removed : Nat)
deriving DecidableEq, Repr

/-- Route `POST /purge-subs` from `src/unnamed/part_000`: 401 when unauthorized,
otherwise `const n = subscriptions.size; subscriptions.clear();` and
`{ ok: true, removed: n }`. -/
def purgeSubsHandler (secret : String) (req : Request) (subs : Subs) :
    PurgeResult × Subs :=
  if !assertAuthorized secret req then (.unauthorized, subs)
  else (.ok (mapSize subs), [])

/-- Route `POST /subscribe` from `src/unnamed/part_000` (identical logic to the
`src/server.js` handler up to the error string). -/
def subscribeHandler (secret : String) (req : Request) (subs : Subs) :
    Server.SubscribeResult × Subs :=
  if !assertAuthorized secret req then (.unauthorized, subs)
  else
    match req.body with
    | none => (.badSubscription, subs)
    | some (endpoint, sub) =>
      if endpoint.isEmpty then (.badSubscription, subs)
      else
        let m := mapSet subs endpoint sub
        (.ok (mapSize m), m)

end Patched

/-! ### Outcome classification (spec §4.2 / §4.3 vocabulary) -/

/-- The eviction test actually applied by `src/server.js`:
a rejection whose status code is 404 or 410. -/
def serverEvicts (o : Outcome) : Bool :=
  match o with
  | .rejected code _ => code == 404 || code == 410
  | _ => false

/-- The eviction test actually applied by `src/unnamed/part_000`:
a rejection whose status code is one of 400, 401, 403, 404, 410. -/
def patchedEvicts (o : Outcome) : Bool :=
  match o with
  | .rejected code _ => [400, 401, 403, 404, 410].contains code
  | _ => false

/-- Whether an outcome is a success. -/
def isDelivered (o : Outcome) : Bool :=
  match o with
  | .delivered => true
  | _ => false

/-- The descriptor that `src/unnamed/part_000` appends to `failures` for a
failed delivery (`code || err?.message`), `none` for a success. -/
def failureDescriptor (o : Outcome) : Option Failure :=
  match o with
  | .delivered => none
  | .rejected code msg => some (if code != 0 then .code code else .msg msg)
  | .transportError msg => some (.msg msg)

/-- Registry invariant maintained by the JS `Map`: no identity occurs twice. -/
def KeysNodup (m : Subs) : Prop := (keys m).Nodup

/-- Registry of the end-to-end scenario of spec §8: endpoints A, B, C. -/
def scenarioSubs : Subs := [("A", "subA"), ("B", "subB"), ("C", "subC")]

/-- Delivery outcomes of the end-to-end scenario of spec §8: A always
succeeds, B is rejected with a permanently-dead code (410), C is rejected
with a rate-limit code (429). -/
def scenarioDeliver (e : String) : Outcome :=
  if e == "A" then .delivered
  else if e == "B" then .rejected 410 "Gone"
  else .rejected 429 "Too Many Requests"

/-! ### Single-Target Dispatcher (modelled from the spec) -/

/-- Modelled from the spec: `MostRecent()` of the Endpoint Registry (§4.1),
"the last-inserted endpoint still present, or an empty signal if the
registry is empty".  The repository source under `src/` has no
broadcast-to-latest route, so the Single-Target Dispatcher and this lookup
are modelled from the wording of the spec. -/
def mostRecent (m : Subs) : Option (String × String) :=
  m.getLast?

/-- Outcome signal of the Single-Target Dispatcher. -/
inductive STResult where
  | noSubscribers
  | sentOne
  | failed (reason : Failure)
deriving DecidableEq, Repr

/-- Report of the Single-Target Dispatcher: which endpoint was attempted
(if any) and the outcome signal. -/
structure STReport where
  attempted : Option String
  result : STResult
deriving DecidableEq, Repr

/-- Modelled from the spec: the Single-Target Dispatcher (§4.4), absent
from `src/`.  "Deliver to exactly the `MostRecent()` endpoint, bypassing
fanout"; "if Registry is empty, returns a no-subscribers result without
error"; "on delivery failure, returns the reason but does not evict". -/
def singleTargetSend (m : Subs) (deliver : String → Outcome) : STReport × Subs :=
  match mostRecent m with
  | none => ({ attempted := none, result := .noSubscribers }, m)
  | some (endpoint, _sub) =>
    match deliver endpoint with
    | .delivered => ({ attempted := some endpoint, result := .sentOne }, m)
    | .rejected code msg =>
      ({ attempted := some endpoint,
         result := .failed (if code != 0 then .code code else .msg msg) }, m)
    | .transportError msg =>
      ({ attempted := some endpoint, result := .failed (.msg msg) }, m)

/-! ### Spec-side readings of the auth check -/

/-- The header value `assertAuthorized` actually compares, read off
independently of the `||` chain in the code: the `X-HillPulse-Key` header when
present and non-empty, otherwise the `Authorization` header when present
and non-empty, otherwise the empty string. -/
def effectiveHeader (req : Request) : String :=
  match req.xHillPulseKey with
  | some k =>
    if k = "" then
      match req.authorization with
      | some a => if a = "" then "" else a
      | none => ""
    else k
  | none =>
    match req.authorization with
    | some a => if a = "" then "" else a
    | none => ""

/-- Disjunctive reading of authorization taken by the claim, for comparison with
`assertAuthorized`: the request is authorized iff its `X-HillPulse-Key`
header or its `Authorization` header equals the secret exactly or equals
`"Bearer "` followed by the secret. -/
def claimAuthorized (secret : String) (req : Request) : Bool :=
  if secret.isEmpty then true
  else
    (req.xHillPulseKey == some secret
      || req.xHillPulseKey == some ("Bearer " ++ secret))
    || (req.authorization == some secret
      || req.authorization == some ("Bearer " ++ secret))

end CapitolWire

namespace CapitolWire
namespace Server

theorem server_loop_sent (deliver : String → Outcome) (l : List (String × String)) (st : BState) :
    (loop deliver l st).sent = st.sent + l.countP (fun p => isDelivered (deliver p.1)) := by
  induction l generalizing st with
  | nil => simp [loop]
  | cons hd rest ih =>
    obtain ⟨e, s⟩ := hd
    cases hdel : deliver e with
    | delivered =>
      simp only [loop, hdel]
      rw [ih]
      simp [List.countP_cons, hdel, isDelivered]
      omega
    | rejected code msg =>
      by_cases hcode : (code == 404 || code == 410) = true
      · simp only [loop, hdel, hcode, if_true]
        rw [ih]
        simp [List.countP_cons, hdel, isDelivered]
      · simp only [loop, hdel]
        rw [if_neg hcode, ih]
        simp [List.countP_cons, hdel, isDelivered]
    | transportError msg =>
      simp only [loop, hdel]
      rw [ih]
      simp [List.countP_cons, hdel, isDelivered]

theorem server_loop_removed (deliver : String → Outcome) (l : List (String × String)) (st : BState) :
    (loop deliver l st).removed = st.removed + l.countP (fun p => serverEvicts (deliver p.1)) := by
  induction l generalizing st with
  | nil => simp [loop]
  | cons hd rest ih =>
    obtain ⟨e, s⟩ := hd
    cases hdel : deliver e with
    | delivered =>
      simp only [loop, hdel]
      rw [ih]
      simp [List.countP_cons, hdel, serverEvicts]
    | rejected code msg =>
      by_cases hcode : (code == 404 || code == 410) = true
      · simp only [loop, hdel, hcode, if_true]
        rw [ih]
        simp [List.countP_cons, hdel, serverEvicts, hcode]
        omega
      · simp only [loop, hdel]
        rw [if_neg hcode, ih]
        simp [List.countP_cons, hdel, serverEvicts, hcode]
    | transportError msg =>
      simp only [loop, hdel]
      rw [ih]
      simp [List.countP_cons, hdel, serverEvicts]

theorem server_loop_subs (deliver : String → Outcome) (l : List (String × String)) (st : BState) :
    (loop deliver l st).subs =
      st.subs.filter (fun p => !((l.map Prod.fst).contains p.1 && serverEvicts (deliver p.1))) := by
  induction l generalizing st with
  | nil => simp [loop]
  | cons hd rest ih =>
    obtain ⟨e, s⟩ := hd
    cases hdel : deliver e with
    | delivered =>
      simp only [loop, hdel]
      rw [ih]
      refine List.filter_congr ?_
      intro p hp
      by_cases hpe : p.1 = e
      · simp [List.map_cons, List.contains_cons, hpe, hdel, serverEvicts]
      · have h2 : (p.1 == e) = false := by simpa using hpe
        simp [List.map_cons, List.contains_cons, h2]
    | rejected code msg =>
      by_cases hcode : (code == 404 || code == 410) = true
      · simp only [loop, hdel, hcode, if_true]
        rw [ih]
        unfold mapDelete
        rw [List.filter_filter]
        refine List.filter_congr ?_
        intro p hp
        by_cases hpe : p.1 = e
        · simp [List.map_cons, List.contains_cons, hpe, hdel, serverEvicts, hcode]
        · have h2 : (p.1 == e) = false := by simpa using hpe
          simp [List.map_cons, List.contains_cons, h2, hpe]
      · simp only [loop, hdel]
        rw [if_neg hcode, ih]
        refine List.filter_congr ?_
        intro p hp
        by_cases hpe : p.1 = e
        · have hev : serverEvicts (deliver p.1) = false := by
            simp [hpe, hdel, serverEvicts]
            simpa using hcode
          simp [List.map_cons, List.contains_cons, hev]
        · have h2 : (p.1 == e) = false := by simpa using hpe
          simp [List.map_cons, List.contains_cons, h2]
    | transportError msg =>
      simp only [loop, hdel]
      rw [ih]
      refine List.filter_congr ?_
      intro p hp
      by_cases hpe : p.1 = e
      · simp [List.map_cons, List.contains_cons, hpe, hdel, serverEvicts]
      · have h2 : (p.1 == e) = false := by simpa using hpe
        simp [List.map_cons, List.contains_cons, h2]

end Server
end CapitolWire

namespace CapitolWire
namespace Patched

theorem patched_loop_sent (deliver : String → Outcome) (l : List (String × String)) (st : BState) :
    (loop deliver l st).sent = st.sent + l.countP (fun p => isDelivered (deliver p.1)) := by
  induction l generalizing st with
  | nil => simp [loop]
  | cons hd rest ih =>
    obtain ⟨e, s⟩ := hd
    cases hdel : deliver e with
    | delivered =>
      simp only [loop, hdel]
      rw [ih]
      simp [List.countP_cons, hdel, isDelivered]
      omega
    | rejected code msg =>
      by_cases hcode : ([400, 401, 403, 404, 410].contains code) = true
      · simp only [loop, hdel, hcode, if_true]
        rw [ih]
        simp [List.countP_cons, hdel, isDelivered]
      · simp only [loop, hdel]
        rw [if_neg hcode, ih]
        simp [List.countP_cons, hdel, isDelivered]
    | transportError msg =>
      simp only [loop, hdel]
      rw [ih]
      simp [List.countP_cons, hdel, isDelivered]

theorem patched_loop_removed (deliver : String → Outcome) (l : List (String × String)) (st : BState) :
    (loop deliver l st).removed = st.removed + l.countP (fun p => patchedEvicts (deliver p.1)) := by
  induction l generalizing st with
  | nil => simp [loop]
  | cons hd rest ih =>
    obtain ⟨e, s⟩ := hd
    cases hdel : deliver e with
    | delivered =>
      simp only [loop, hdel]
      rw [ih]
      simp [List.countP_cons, hdel, patchedEvicts]
    | rejected code msg =>
      by_cases hcode : ([400, 401, 403, 404, 410].contains code) = true
      · have hev : patchedEvicts (deliver e) = true := by
          rw [hdel]; exact hcode
        simp only [loop, hdel, hcode, if_true]
        rw [ih]
        simp [List.countP_cons, hev]
        omega
      · have hev : patchedEvicts (deliver e) = false := by
          rw [hdel]; exact Bool.eq_false_iff.mpr hcode
        simp only [loop, hdel]
        rw [if_neg hcode, ih]
        simp [List.countP_cons, hev]
    | transportError msg =>
      simp only [loop, hdel]
      rw [ih]
      simp [List.countP_cons, hdel, patchedEvicts]

theorem patched_loop_failures (deliver : String → Outcome) (l : List (String × String)) (st : BState) :
    (loop deliver l st).failures =
      st.failures ++ l.filterMap (fun p => failureDescriptor (deliver p.1)) := by
  induction l generalizing st with
  | nil => simp [loop]
  | cons hd rest ih =>
    obtain ⟨e, s⟩ := hd
    cases hdel : deliver e with
    | delivered =>
      simp only [loop, hdel]
      rw [ih]
      simp [List.filterMap_cons, hdel, failureDescriptor]
    | rejected code msg =>
      by_cases hcode : ([400, 401, 403, 404, 410].contains code) = true
      · simp only [loop, hdel, hcode, if_true]
        rw [ih]
        simp [List.filterMap_cons, hdel, failureDescriptor]
      · simp only [loop, hdel]
        rw [if_neg hcode, ih]
        simp [List.filterMap_cons, hdel, failureDescriptor]
    | transportError msg =>
      simp only [loop, hdel]
      rw [ih]
      simp [List.filterMap_cons, hdel, failureDescriptor]

theorem patched_loop_subs (deliver : String → Outcome) (l : List (String × String)) (st : BState) :
    (loop deliver l st).subs =
      st.subs.filter (fun p => !((l.map Prod.fst).contains p.1 && patchedEvicts (deliver p.1))) := by
  induction l generalizing st with
  | nil => simp [loop]
  | cons hd rest ih =>
    obtain ⟨e, s⟩ := hd
    cases hdel : deliver e with
    | delivered =>
      simp only [loop, hdel]
      rw [ih]
      refine List.filter_congr ?_
      intro p hp
      by_cases hpe : p.1 = e
      · simp [List.map_cons, List.contains_cons, hpe, hdel, patchedEvicts]
      · have h2 : (p.1 == e) = false := by simpa using hpe
        simp [List.map_cons, List.contains_cons, h2]
    | rejected code msg =>
      by_cases hcode : ([400, 401, 403, 404, 410].contains code) = true
      · have hev : patchedEvicts (deliver e) = true := by
          rw [hdel]; exact hcode
        simp only [loop, hdel, hcode, if_true]
        rw [ih]
        unfold mapDelete
        rw [List.filter_filter]
        refine List.filter_congr ?_
        intro p hp
        by_cases hpe : p.1 = e
        · simp [List.map_cons, List.contains_cons, hpe, hev]
        · have h2 : (p.1 == e) = false := by simpa using hpe
          simp [List.map_cons, List.contains_cons, h2, hpe]
      · have hev : patchedEvicts (deliver e) = false := by
          rw [hdel]; exact Bool.eq_false_iff.mpr hcode
        simp only [loop, hdel]
        rw [if_neg hcode, ih]
        refine List.filter_congr ?_
        intro p hp
        by_cases hpe : p.1 = e
        · rw [hpe]
          simp [List.map_cons, List.contains_cons, hev]
        · have h2 : (p.1 == e) = false := by simpa using hpe
          simp [List.map_cons, List.contains_cons, h2]
    | transportError msg =>
      simp only [loop, hdel]
      rw [ih]
      refine List.filter_congr ?_
      intro p hp
      by_cases hpe : p.1 = e
      · simp [List.map_cons, List.contains_cons, hpe, hdel, patchedEvicts]
      · have h2 : (p.1 == e) = false := by simpa using hpe
        simp [List.map_cons, List.contains_cons, h2]

end Patched
end CapitolWire

namespace CapitolWire

theorem mapHas_mapSet_self (m : Subs) (k v : String) : mapHas (mapSet m k v) k = true := by
  unfold mapSet
  by_cases h : mapHas m k = true
  · rw [if_pos h]
    unfold mapHas at h ⊢
    obtain ⟨p, hp, hpk⟩ := List.any_eq_true.mp h
    refine List.any_eq_true.mpr ⟨(k, v), List.mem_map.mpr ⟨p, hp, by rw [if_pos hpk]⟩, by simp⟩
  · rw [if_neg h]
    unfold mapHas
    simp [List.any_append]

theorem mapSize_mapSet_of_has (m : Subs) (k v : String) (h : mapHas m k = true) :
    mapSize (mapSet m k v) = mapSize m := by
  unfold mapSize mapSet
  rw [if_pos h, List.length_map]

theorem mapSet_cons_ne (a : String × String) (m : Subs) (k v : String)
    (h : (a.1 == k) = false) : mapSet (a :: m) k v = a :: mapSet m k v := by
  have hcons : mapHas (a :: m) k = mapHas m k := by
    unfold mapHas
    rw [List.any_cons, h, Bool.false_or]
  unfold mapSet
  rw [hcons]
  by_cases hm : mapHas m k = true
  · rw [if_pos hm, if_pos hm, List.map_cons, if_neg (by rw [h]; exact Bool.false_ne_true)]
  · rw [if_neg hm, if_neg hm, List.cons_append]

theorem filter_mapSet_self (m : Subs) (k v : String) (hnd : KeysNodup m) :
    (mapSet m k v).filter (fun p => p.1 == k) = [(k, v)] := by
  induction m with
  | nil => simp [mapSet, mapHas, List.filter]
  | cons a m ih =>
    have hnd' : KeysNodup m := (List.nodup_cons.mp hnd).2
    have hnotin : a.1 ∉ keys m := (List.nodup_cons.mp hnd).1
    by_cases hak : (a.1 == k) = true
    · have hk : a.1 = k := by simpa using hak
      have hkey : ∀ q ∈ m, (q.1 == k) = false := by
        intro q hq
        refine beq_eq_false_iff_ne.mpr ?_
        intro hqk
        exact hnotin (hk ▸ hqk ▸ List.mem_map_of_mem Prod.fst hq)
      have hmap : m.map (fun p => if p.1 == k then (k, v) else p) = m := by
        refine (List.map_congr_left ?_).trans (List.map_id m)
        intro q hq
        rw [if_neg (by rw [hkey q hq]; exact Bool.false_ne_true)]
        rfl
      have hnone : m.filter (fun p => p.1 == k) = [] := by
        refine List.filter_eq_nil_iff.mpr ?_
        intro q hq
        rw [hkey q hq]
        exact Bool.false_ne_true
      unfold mapSet
      rw [if_pos (by unfold mapHas; rw [List.any_cons, hak, Bool.true_or])]
      rw [List.map_cons, if_pos hak, hmap]
      rw [List.filter_cons_of_pos (by simp), hnone]
    · have h2 : (a.1 == k) = false := by simpa using hak
      rw [mapSet_cons_ne a m k v h2]
      rw [List.filter_cons_of_neg (by rw [h2]; exact Bool.false_ne_true)]
      exact ih hnd'

theorem keys_mapSet_of_has (m : Subs) (k v : String) (h : mapHas m k = true) :
    keys (mapSet m k v) = keys m := by
  unfold keys mapSet
  rw [if_pos h, List.map_map]
  refine List.map_congr_left ?_
  intro q hq
  by_cases hqk : (q.1 == k) = true
  · have : q.1 = k := by simpa using hqk
    simp [Function.comp, hqk, this]
  · simp only [Bool.not_eq_true] at hqk
    simp [Function.comp, hqk]

theorem keysNodup_mapSet (m : Subs) (k v : String) (hnd : KeysNodup m) :
    KeysNodup (mapSet m k v) := by
  unfold KeysNodup
  by_cases h : mapHas m k = true
  · rw [keys_mapSet_of_has m k v h]
    exact hnd
  · unfold mapSet
    rw [if_neg h]
    unfold keys
    rw [List.map_append]
    have hsing : List.map Prod.fst [(k, v)] = [k] := rfl
    rw [hsing]
    refine List.nodup_append.mpr ⟨hnd, List.nodup_singleton k, ?_⟩
    intro x hx hx'
    have hxk : x = k := List.mem_singleton.mp hx'
    obtain ⟨p, hp, hpk⟩ := List.mem_map.mp hx
    apply h
    unfold mapHas
    exact List.any_eq_true.mpr ⟨p, hp, by rw [hpk, hxk]; exact beq_self_eq_true k⟩

end CapitolWire

namespace CapitolWire

theorem length_filter_not_add_countP {α : Type} (p : α → Bool) (l : List α) :
    (l.filter (fun a => !p a)).length + l.countP p = l.length := by
  induction l with
  | nil => simp
  | cons a l ih =>
    by_cases h : p a = true <;>
      simp [List.filter_cons, List.countP_cons, h] <;> omega

theorem filter_keys_self (subs : Subs) (q : String → Bool) :
    subs.filter (fun p => !((subs.map Prod.fst).contains p.1 && q p.1))
      = subs.filter (fun p => !q p.1) := by
  refine List.filter_congr ?_
  intro p hp
  have hc : (subs.map Prod.fst).contains p.1 = true :=
    List.elem_iff.mpr (List.mem_map_of_mem Prod.fst hp)
  rw [hc, Bool.true_and]

theorem mem_keys_filter (subs : Subs) (q : String → Bool) (e : String)
    (he : e ∈ keys subs) :
    (e ∈ keys (subs.filter (fun p => q p.1))) ↔ q e = true := by
  unfold keys at he ⊢
  constructor
  · intro h
    obtain ⟨p, hp, hpk⟩ := List.mem_map.mp h
    have hq : q p.1 = true := (List.mem_filter.mp hp).2
    exact hpk ▸ hq
  · intro hq
    obtain ⟨p, hp, hpk⟩ := List.mem_map.mp he
    refine List.mem_map.mpr ⟨p, List.mem_filter.mpr ⟨hp, ?_⟩, hpk⟩
    show q p.1 = true
    rw [hpk]
    exact hq

theorem server_broadcast_eq (subs : Subs) (deliver : String → Outcome) :
    Server.broadcast subs deliver =
      ({ ok := true,
         sent := subs.countP (fun p => isDelivered (deliver p.1)),
         active := (subs.filter (fun p => !serverEvicts (deliver p.1))).length,
         removed := subs.countP (fun p => serverEvicts (deliver p.1)) },
       subs.filter (fun p => !serverEvicts (deliver p.1))) := by
  unfold Server.broadcast mapSize
  dsimp only
  rw [Server.server_loop_subs, Server.server_loop_sent, Server.server_loop_removed]
  rw [show (fun p : String × String =>
        !((subs.map Prod.fst).contains p.1 && serverEvicts (deliver p.1)))
      = fun p : String × String =>
        !((subs.map Prod.fst).contains p.1 && (fun e => serverEvicts (deliver e)) p.1)
      from rfl]
  rw [filter_keys_self subs (fun e => serverEvicts (deliver e))]
  simp

theorem patched_broadcast_eq (subs : Subs) (deliver : String → Outcome) :
    Patched.broadcast subs deliver =
      ({ ok := true,
         sent := subs.countP (fun p => isDelivered (deliver p.1)),
         active := (subs.filter (fun p => !patchedEvicts (deliver p.1))).length,
         removed := subs.countP (fun p => patchedEvicts (deliver p.1)),
         failures := subs.filterMap (fun p => failureDescriptor (deliver p.1)) },
       subs.filter (fun p => !patchedEvicts (deliver p.1))) := by
  unfold Patched.broadcast mapSize
  dsimp only
  rw [Patched.patched_loop_subs, Patched.patched_loop_sent, Patched.patched_loop_removed,
    Patched.patched_loop_failures]
  rw [show (fun p : String × String =>
        !((subs.map Prod.fst).contains p.1 && patchedEvicts (deliver p.1)))
      = fun p : String × String =>
        !((subs.map Prod.fst).contains p.1 && (fun e => patchedEvicts (deliver e)) p.1)
      from rfl]
  rw [filter_keys_self subs (fun e => patchedEvicts (deliver e))]
  simp

end CapitolWire

namespace CapitolWire

/-- Claim C1 (counterexample): in the `src/unnamed/part_000` variant a
rejection with reason code 400 — not a permanently-dead 404/410 — still
removes the endpoint from the registry and increments `removed`,
contradicting the claim that only 404/410 evict. -/
theorem c1_eviction_policy_counterexample :
    (Patched.broadcast [("E", "s")] (fun _ => Outcome.rejected 400 "Bad Request")).1.removed = 1
    ∧ keys (Patched.broadcast [("E", "s")] (fun _ => Outcome.rejected 400 "Bad Request")).2 = [] := by
  decide

/-- Claim C1 (amended): during a broadcast, an endpoint of the dispatched
set stays registered iff its outcome is not in the eviction class of the
variant at hand
— codes 404/410 for `src/server.js`, codes 400/401/403/404/410 for
`src/unnamed/part_000`; transport errors never evict in either — and the
removed count is exactly the number of dispatched endpoints whose outcome
is in the eviction class. -/
theorem c1_eviction_policy (subs : Subs) (deliver : String → Outcome) (e : String)
    (he : e ∈ keys subs) :
    ((e ∈ keys (Server.broadcast subs deliver).2) ↔ serverEvicts (deliver e) = false)
    ∧ ((e ∈ keys (Patched.broadcast subs deliver).2) ↔ patchedEvicts (deliver e) = false)
    ∧ (Server.broadcast subs deliver).1.removed
        = subs.countP (fun p => serverEvicts (deliver p.1))
    ∧ (Patched.broadcast subs deliver).1.removed
        = subs.countP (fun p => patchedEvicts (deliver p.1)) := by
  rw [server_broadcast_eq, patched_broadcast_eq]
  refine ⟨?_, ?_, rfl, rfl⟩
  · simpa using mem_keys_filter subs (fun x => !serverEvicts (deliver x)) e he
  · simpa using mem_keys_filter subs (fun x => !patchedEvicts (deliver x)) e he

/-- Claim C1 witness at a concrete input. -/
theorem c1_eviction_policy_witness :
    ("A" ∈ keys (Server.broadcast [("A", "subA")] (fun _ => Outcome.delivered)).2)
    ∧ (Server.broadcast [("A", "subA")] (fun _ => Outcome.delivered)).1.removed
        = List.countP (fun p => serverEvicts ((fun _ => Outcome.delivered) p.1)) [("A", "subA")] := by
  have h := c1_eviction_policy [("A", "subA")] (fun _ => Outcome.delivered) "A" (by decide)
  exact ⟨h.1.mpr (by decide), h.2.2.1⟩

/-- Claim C2: an outcome outside the enumerated eviction codes of a variant
(e.g. a 5xx rejection or a transport error) leaves the endpoint
registered in both variants, and if every outcome of a broadcast is of
that kind the registry size is unchanged. -/
theorem c2_transient_retained (subs : Subs) (deliver : String → Outcome) :
    (∀ e, e ∈ keys subs → serverEvicts (deliver e) = false →
      e ∈ keys (Server.broadcast subs deliver).2)
    ∧ (∀ e, e ∈ keys subs → patchedEvicts (deliver e) = false →
      e ∈ keys (Patched.broadcast subs deliver).2)
    ∧ ((∀ p ∈ subs, serverEvicts (deliver p.1) = false) →
      mapSize (Server.broadcast subs deliver).2 = mapSize subs)
    ∧ ((∀ p ∈ subs, patchedEvicts (deliver p.1) = false) →
      mapSize (Patched.broadcast subs deliver).2 = mapSize subs) := by
  rw [server_broadcast_eq, patched_broadcast_eq]
  refine ⟨?_, ?_, ?_, ?_⟩
  · intro e he hev
    have h2 : (e ∈ keys (subs.filter (fun p => !serverEvicts (deliver p.1))))
        ↔ serverEvicts (deliver e) = false := by
      simpa using mem_keys_filter subs (fun x => !serverEvicts (deliver x)) e he
    simpa using h2.mpr hev
  · intro e he hev
    have h2 : (e ∈ keys (subs.filter (fun p => !patchedEvicts (deliver p.1))))
        ↔ patchedEvicts (deliver e) = false := by
      simpa using mem_keys_filter subs (fun x => !patchedEvicts (deliver x)) e he
    simpa using h2.mpr hev
  · intro hall
    have hfix : subs.filter (fun p => !serverEvicts (deliver p.1)) = subs := by
      refine List.filter_eq_self.mpr ?_
      intro p hp
      rw [hall p hp]
      rfl
    simp [mapSize, hfix]
  · intro hall
    have hfix : subs.filter (fun p => !patchedEvicts (deliver p.1)) = subs := by
      refine List.filter_eq_self.mpr ?_
      intro p hp
      rw [hall p hp]
      rfl
    simp [mapSize, hfix]

/-- Claim C2 witness at a concrete input: a 500 rejection retains the
endpoint. -/
theorem c2_transient_retained_witness :
    "E" ∈ keys (Server.broadcast [("E", "s")] (fun _ => Outcome.rejected 500 "Server Error")).2 := by
  exact (c2_transient_retained [("E", "s")] (fun _ => Outcome.rejected 500 "Server Error")).1
    "E" (by decide) (by decide)

/-- Claim C3 (counterexample): in the spec §8 scenario (A delivered,
B rejected 410, C rejected 429) the `src/unnamed/part_000` broadcast
reports `sent = 1` and `removed = 1` as the claim says, but its `failures`
list is not `[429]`: the evicted endpoint B also contributed its 410 code. -/
theorem c3_failures_counterexample :
    (Patched.broadcast scenarioSubs scenarioDeliver).1.sent = 1
    ∧ (Patched.broadcast scenarioSubs scenarioDeliver).1.removed = 1
    ∧ (Patched.broadcast scenarioSubs scenarioDeliver).1.failures ≠ [Failure.code 429] := by
  decide

/-- Claim C3 (amended): in the `src/unnamed/part_000` variant the
`failures` list of the report holds exactly one descriptor per failed delivery — evicted
endpoints included, delivered endpoints contributing none — so the §8
scenario yields `failures = [410, 429]` (and delivered 1, evicted 1, with
exactly A and C still registered); the `src/server.js` report carries no
failures list at all. -/
theorem c3_failures_per_failed_delivery (subs : Subs) (deliver : String → Outcome) :
    (Patched.broadcast subs deliver).1.failures
      = subs.filterMap (fun p => failureDescriptor (deliver p.1))
    ∧ (Patched.broadcast scenarioSubs scenarioDeliver).1
      = { ok := true, sent := 1, active := 2, removed := 1,
          failures := [Failure.code 410, Failure.code 429] }
    ∧ keys (Patched.broadcast scenarioSubs scenarioDeliver).2 = ["A", "C"] := by
  refine ⟨?_, by decide, by decide⟩
  rw [patched_broadcast_eq]

/-- Claim C4: with VAPID configured, a broadcast never fails as a whole:
for every assignment of per-endpoint outcomes — including all failing —
both variants return the structured `ok` report, with `sent = 0` when
nothing was delivered. -/
theorem c4_broadcast_total (vapidPublic vapidPrivate : String) (subs : Subs)
    (deliver : String → Outcome)
    (hvp : vapidPublic ≠ "") (hvk : vapidPrivate ≠ "") :
    Server.broadcastNotification vapidPublic vapidPrivate subs deliver
      = some (Server.broadcast subs deliver)
    ∧ (Server.broadcast subs deliver).1.ok = true
    ∧ (Patched.broadcast subs deliver).1.ok = true
    ∧ ((∀ p ∈ subs, isDelivered (deliver p.1) = false) →
      (Server.broadcast subs deliver).1.sent = 0
      ∧ (Patched.broadcast subs deliver).1.sent = 0) := by
  have hvp' : vapidPublic.isEmpty = false := by
    rw [← Bool.not_eq_true]
    intro h
    exact hvp ((String.isEmpty_iff _).mp h)
  have hvk' : vapidPrivate.isEmpty = false := by
    rw [← Bool.not_eq_true]
    intro h
    exact hvk ((String.isEmpty_iff _).mp h)
  refine ⟨?_, ?_, ?_, ?_⟩
  · unfold Server.broadcastNotification
    rw [hvp', hvk']
    rfl
  · rw [server_broadcast_eq]
  · rw [patched_broadcast_eq]
  · intro hall
    rw [server_broadcast_eq, patched_broadcast_eq]
    constructor
    · exact List.countP_eq_zero.mpr (fun p hp => by rw [hall p hp]; exact Bool.false_ne_true)
    · exact List.countP_eq_zero.mpr (fun p hp => by rw [hall p hp]; exact Bool.false_ne_true)

/-- Claim C4 witness at a concrete input where the only delivery fails. -/
theorem c4_broadcast_total_witness :
    (Server.broadcast [("E", "s")] (fun _ => Outcome.transportError "fetch failed")).1.sent = 0
    ∧ (Patched.broadcast [("E", "s")] (fun _ => Outcome.transportError "fetch failed")).1.sent = 0 := by
  exact (c4_broadcast_total "pub" "priv" [("E", "s")]
    (fun _ => Outcome.transportError "fetch failed") (by decide) (by decide)).2.2.2 (by decide)

end CapitolWire

namespace CapitolWire

/-- Claim C6: subscribing is idempotent on identity: on any registry with
distinct identities, two authorized subscriptions with the same non-empty
endpoint identity (in either variant) leave exactly one entry for that
identity, holding the credential material written last, and the second
subscription does not change the count. -/
theorem c6_subscribe_idempotent (secret : String) (r1 r2 : Request) (m : Subs)
    (e c1 c2 : String)
    (ha1 : assertAuthorized secret r1 = true) (ha2 : assertAuthorized secret r2 = true)
    (hb1 : r1.body = some (e, c1)) (hb2 : r2.body = some (e, c2))
    (he : e ≠ "") (hnd : KeysNodup m) :
    (Server.subscribeHandler secret r1 m).2 = mapSet m e c1
    ∧ (Server.subscribeHandler secret r2 (Server.subscribeHandler secret r1 m).2).2
        = mapSet (mapSet m e c1) e c2
    ∧ mapSize (mapSet (mapSet m e c1) e c2) = mapSize (mapSet m e c1)
    ∧ (mapSet (mapSet m e c1) e c2).filter (fun p => p.1 == e) = [(e, c2)]
    ∧ (Patched.subscribeHandler secret r2 (Patched.subscribeHandler secret r1 m).2).2
        = mapSet (mapSet m e c1) e c2 := by
  have hee : e.isEmpty = false := by
    rw [← Bool.not_eq_true]
    intro h
    exact he ((String.isEmpty_iff _).mp h)
  have hs1 : ∀ ms : Subs, (Server.subscribeHandler secret r1 ms).2 = mapSet ms e c1 := by
    intro ms
    unfold Server.subscribeHandler
    rw [ha1, hb1]
    simp [hee]
  have hs2 : ∀ ms : Subs, (Server.subscribeHandler secret r2 ms).2 = mapSet ms e c2 := by
    intro ms
    unfold Server.subscribeHandler
    rw [ha2, hb2]
    simp [hee]
  have hp1 : ∀ ms : Subs, (Patched.subscribeHandler secret r1 ms).2 = mapSet ms e c1 := by
    intro ms
    unfold Patched.subscribeHandler
    rw [ha1, hb1]
    simp [hee]
  have hp2 : ∀ ms : Subs, (Patched.subscribeHandler secret r2 ms).2 = mapSet ms e c2 := by
    intro ms
    unfold Patched.subscribeHandler
    rw [ha2, hb2]
    simp [hee]
  refine ⟨hs1 m, ?_, ?_, ?_, ?_⟩
  · rw [hs2, hs1]
  · exact mapSize_mapSet_of_has _ _ _ (mapHas_mapSet_self m e c1)
  · exact filter_mapSet_self _ _ _ (keysNodup_mapSet m e c1 hnd)
  · rw [hp2, hp1]

/-- Claim C6 witness at a concrete input. -/
theorem c6_subscribe_idempotent_witness :
    mapSize (mapSet (mapSet [] "E" "c1") "E" "c2") = mapSize (mapSet [] "E" "c1")
    ∧ (mapSet (mapSet [] "E" "c1") "E" "c2").filter (fun p => p.1 == "E") = [("E", "c2")] := by
  have h := c6_subscribe_idempotent ""
    { xHillPulseKey := none, authorization := none, body := some ("E", "c1") }
    { xHillPulseKey := none, authorization := none, body := some ("E", "c2") }
    [] "E" "c1" "c2" (by decide) (by decide) rfl rfl (by decide) (by simp [KeysNodup, keys])
  exact ⟨h.2.2.1, h.2.2.2.1⟩

/-- Claim C7: in both variants the `active` field of the report is the
registry size after all evictions of the broadcast, and it equals the
pre-broadcast size minus the removed count
(`active + removed = pre-broadcast size`). -/
theorem c7_active_is_post_eviction_count (subs : Subs) (deliver : String → Outcome) :
    ((Server.broadcast subs deliver).1.active = mapSize (Server.broadcast subs deliver).2)
    ∧ ((Server.broadcast subs deliver).1.active + (Server.broadcast subs deliver).1.removed
        = mapSize subs)
    ∧ ((Patched.broadcast subs deliver).1.active = mapSize (Patched.broadcast subs deliver).2)
    ∧ ((Patched.broadcast subs deliver).1.active + (Patched.broadcast subs deliver).1.removed
        = mapSize subs) := by
  rw [server_broadcast_eq, patched_broadcast_eq]
  refine ⟨rfl, ?_, rfl, ?_⟩
  · exact length_filter_not_add_countP (fun p => serverEvicts (deliver p.1)) subs
  · exact length_filter_not_add_countP (fun p => patchedEvicts (deliver p.1)) subs

/-- Claim C8: an authorized purge removes every endpoint unconditionally,
answers with the count that was present immediately before the call, and
leaves the registry at size zero. -/
theorem c8_purge_clears_all (secret : String) (req : Request) (subs : Subs)
    (ha : assertAuthorized secret req = true) :
    Patched.purgeSubsHandler secret req subs = (.ok (mapSize subs), [])
    ∧ mapSize (Patched.purgeSubsHandler secret req subs).2 = 0 := by
  have h : Patched.purgeSubsHandler secret req subs = (.ok (mapSize subs), []) := by
    unfold Patched.purgeSubsHandler
    rw [ha]
    rfl
  exact ⟨h, by rw [h]; rfl⟩

/-- Claim C8 witness at a concrete input. -/
theorem c8_purge_clears_all_witness :
    Patched.purgeSubsHandler "" { xHillPulseKey := none, authorization := none, body := none }
      [("E", "s")] = (Patched.PurgeResult.ok 1, []) := by
  exact (c8_purge_clears_all "" { xHillPulseKey := none, authorization := none, body := none }
    [("E", "s")] (by decide)).1

/-- Claim C9 (spec-modelled): the Single-Target Dispatcher targets exactly
the most recently registered endpoint still present, reports "no
subscribers" without error when the registry is empty, and never removes
an endpoint, leaving the registry — hence `Count()` — unchanged for every
delivery outcome, a permanently-dead rejection included. -/
theorem c9_single_target_no_evict (m : Subs) (deliver : String → Outcome) :
    ((singleTargetSend m deliver).1.attempted = (mostRecent m).map Prod.fst)
    ∧ ((singleTargetSend m deliver).2 = m)
    ∧ (mapSize (singleTargetSend m deliver).2 = mapSize m)
    ∧ (mostRecent m = none → (singleTargetSend m deliver).1.result = .noSubscribers)
    ∧ (m = [] → mostRecent m = none) := by
  unfold singleTargetSend
  cases hm : mostRecent m with
  | none => exact ⟨rfl, rfl, rfl, fun _ => rfl, fun _ => rfl⟩
  | some p =>
    obtain ⟨endpoint, sub⟩ := p
    have hne : ¬(m = []) := by
      intro h
      rw [h] at hm
      simp [mostRecent] at hm
    dsimp only
    cases hd : deliver endpoint <;>
      exact ⟨rfl, rfl, rfl, fun hc => Option.noConfusion hc, fun h => absurd h hne⟩

/-- Claim C9 witness at concrete inputs: empty registry, and a dead-endpoint
rejection that leaves the registry unchanged. -/
theorem c9_single_target_no_evict_witness :
    (singleTargetSend [] (fun _ => Outcome.rejected 410 "Gone")).1.result = STResult.noSubscribers
    ∧ (singleTargetSend [("E", "s")] (fun _ => Outcome.rejected 410 "Gone")).2 = [("E", "s")] := by
  exact ⟨(c9_single_target_no_evict [] (fun _ => Outcome.rejected 410 "Gone")).2.2.2.1 rfl,
    (c9_single_target_no_evict [("E", "s")] (fun _ => Outcome.rejected 410 "Gone")).2.1⟩

/-- Claim C10 (counterexample): with secret `"s"`, a request whose
`X-HillPulse-Key` header is the wrong non-empty value `"x"` while its
`Authorization` header equals the secret is authorized under the
disjunctive reading of the claim but rejected by `assertAuthorized`, which only ever
compares the first non-empty header. -/
theorem c10_auth_counterexample :
    claimAuthorized "s" { xHillPulseKey := some "x", authorization := some "s", body := none } = true
    ∧ assertAuthorized "s" { xHillPulseKey := some "x", authorization := some "s", body := none }
        = false := by
  decide

/-- Claim C10 (amended): with an empty secret every request is authorized;
with a non-empty secret a request is authorized iff the effective header —
`X-HillPulse-Key` when present and non-empty, else `Authorization` when
present and non-empty, else the empty string — equals the secret exactly
or equals `"Bearer "` followed by the secret. -/
theorem c10_auth_characterization (secret : String) (req : Request) :
    assertAuthorized secret req = true ↔
      (secret = "" ∨ effectiveHeader req = secret
        ∨ effectiveHeader req = "Bearer " ++ secret) := by
  have hisEmpty : ∀ s : String, s ≠ "" → s.isEmpty = false := by
    intro s hs'
    rw [← Bool.not_eq_true]
    intro h
    exact hs' ((String.isEmpty_iff _).mp h)
  have h0 : ("" : String).isEmpty = true := rfl
  by_cases hs : secret = ""
  · subst hs
    simp [assertAuthorized, h0]
  · have hse : secret.isEmpty = false := hisEmpty secret hs
    have heff : ((truthy req.xHillPulseKey).orElse fun _ => truthy req.authorization).getD ""
        = effectiveHeader req := by
      rcases req with ⟨k, a, b⟩
      cases k with
      | none =>
        cases a with
        | none => rfl
        | some a' =>
          by_cases ha' : a' = ""
          · subst ha'
            rfl
          · simp [truthy, effectiveHeader, hisEmpty a' ha', ha', h0]
      | some k' =>
        by_cases hk' : k' = ""
        · subst hk'
          cases a with
          | none => rfl
          | some a' =>
            by_cases ha' : a' = ""
            · subst ha'
              rfl
            · simp [truthy, effectiveHeader, hisEmpty a' ha', ha', h0]
        · simp [truthy, effectiveHeader, hisEmpty k' hk', hk', h0]
    unfold assertAuthorized
    rw [hse]
    simp only [Bool.false_eq_true, if_false]
    rw [heff]
    simp [hs, beq_iff_eq]

end CapitolWire
